import Mathlib

/-
  Verification of the AI-Interviewer real-time media pipeline.

  Shallow embedding of the audio codec, playback scheduler, speech-rate
  analyzer, nudge advisory manager, vision-analysis guard and report
  fallback, translated from:
    - src/services/geminiService.ts
    - src/components/InterviewScreen.tsx
    - src/services/visionService.ts
    - src/unnamed/part_000 (ReportScreen)
  Machine timestamps (Date.now, milliseconds) are modelled as integers;
  audio-clock times (AudioContext.currentTime, seconds) and float samples
  are modelled as rationals.
-/

/-! ## PCM codec (geminiService.ts lines 6-14, 200-223; InterviewScreen.tsx lines 71-83) -/

/-- Truncation toward zero of a rational, as JavaScript ToIntegerOrInfinity does
for a finite Number. -/
def truncQ (q : ℚ) : ℤ := if 0 ≤ q then ⌊q⌋ else ⌈q⌉

/-- JavaScript ToInt16: truncate toward zero, wrap modulo 2^16 into
[-32768, 32767].  This is the conversion applied both by DataView.setInt16 and
by assignment into an Int16Array element. -/
def toInt16 (q : ℚ) : ℤ :=
  let m := truncQ q % 65536
  if 32768 ≤ m then m - 65536 else m

/-- One sample of floatTo16BitPCM (geminiService.ts lines 9-11):
`let s = Math.max(-1, Math.min(1, float32Array[i]));`
`view.setInt16(i * 2, s < 0 ? s * 0x8000 : s * 0x7FFF, true);` -/
def pcmSample (x : ℚ) : ℤ :=
  let s := max (-1) (min 1 x)
  toInt16 (if s < 0 then s * 32768 else s * 32767)

/-- Little-endian byte pair of a 16-bit value, as DataView.setInt16 with
littleEndian = true stores it. -/
def int16ToBytes (v : ℤ) : List ℕ :=
  let u := (v % 65536).toNat
  [u % 256, u / 256]

/-- floatTo16BitPCM (geminiService.ts lines 6-14): clamp each sample to
[-1, 1], scale negatives by 32768 and non-negatives by 32767, pack the 16-bit
results little-endian into a byte buffer. -/
def floatTo16BitPCM (xs : List ℚ) : List ℕ :=
  xs.flatMap (fun x => int16ToBytes (pcmSample x))

/-- The conversion loop inside sendAudioChunk (geminiService.ts lines 205-209):
`int16[i] = float32Data[i] * 32768;` with Int16Array assignment semantics
(truncate and wrap; no clamping, and the same factor 32768 for every sample).
The resulting Int16Array backing store is what gets base64-encoded and
transmitted. -/
def sendAudioChunk (xs : List ℚ) : List ℤ :=
  xs.map (fun x => toInt16 (x * 32768))

/-- Reinterpret a little-endian byte pair as a signed 16-bit value, as reading
an Int16Array element does on a little-endian platform. -/
def pairToInt16 (lo hi : ℕ) : ℤ :=
  let u := lo + 256 * hi
  if 32768 ≤ u then (u : ℤ) - 65536 else (u : ℤ)

/-- View a byte buffer as consecutive little-endian signed 16-bit values
(`new Int16Array(buffer)` element reads). -/
def bytesToInt16s : List ℕ → List ℤ
  | lo :: hi :: rest => pairToInt16 lo hi :: bytesToInt16s rest
  | _ => []

/-- One sample of the decode loop (InterviewScreen.tsx line 76):
`float32Data[i] = pcmData[i] / 32768.0;` -/
def int16ToFloat (v : ℤ) : ℚ := (v : ℚ) / 32768

/-- The pure sample-conversion part of decodePCMData (InterviewScreen.tsx
lines 72-77): interpret the bytes as little-endian int16 and divide each by
32768. -/
def decodeSamples (bytes : List ℕ) : List ℚ :=
  (bytesToInt16s bytes).map int16ToFloat

/-- decodePCMData (InterviewScreen.tsx lines 71-83) as a fallible operation.
`new Int16Array(buffer)` throws a RangeError when the byte length is not a
multiple of 2, and `ctx.createBuffer(1, 0, 24000)` throws a NotSupportedError
when the frame count is 0; both throws escape decodePCMData and are caught by
the caller.  Every other input decodes successfully. -/
def decodePCMData (bytes : List ℕ) : Option (List ℚ) :=
  if bytes.length % 2 = 0 ∧ bytes.length ≠ 0 then some (decodeSamples bytes)
  else none

/-! ## Playback scheduler (InterviewScreen.tsx lines 224-246, onAudioData
callback passed to geminiService.connect) -/

/-- One inbound audio delivery: the output AudioContext.currentTime at the
moment the callback runs, and the raw payload bytes. -/
structure AudioEvent where
  clock : ℚ
  payload : List ℕ
  deriving DecidableEq

/-- A scheduled playback segment: its start time on the playback timeline and
its duration `buffer.duration = length / 24000` seconds. -/
structure Segment where
  start : ℚ
  dur : ℚ
  deriving DecidableEq

/-- The onAudioData callback body (InterviewScreen.tsx lines 234-245):
`nextStartTimeRef.current = Math.max(nextStartTimeRef.current, ctx.currentTime);`
then inside try: decode, `source.start(nextStartTimeRef.current)`,
`nextStartTimeRef.current += buffer.duration`; a decode throw is caught after
the clamp and before any scheduling.  Returns the new cursor and the scheduled
segment, if any. -/
def onAudioData (cursor : ℚ) (ev : AudioEvent) : ℚ × Option Segment :=
  let c1 := max cursor ev.clock
  match decodePCMData ev.payload with
  | some samples =>
      let dur : ℚ := (samples.length : ℚ) / 24000
      (c1 + dur, some ⟨c1, dur⟩)
  | none => (c1, none)

/-- Run the playback handler over a sequence of inbound deliveries, collecting
the scheduled segments in order. -/
def runPlayback (cursor : ℚ) : List AudioEvent → ℚ × List Segment
  | [] => (cursor, [])
  | ev :: rest =>
      let step := onAudioData cursor ev
      let tail := runPlayback step.1 rest
      (tail.1, (match step.2 with | some s => s :: tail.2 | none => tail.2))

/-- Segments laid out sequentially starting no earlier than a given cursor:
each segment starts at or after the previous end, durations are nonnegative. -/
def SeqFrom : ℚ → List Segment → Prop
  | _, [] => True
  | c, s :: rest => (c ≤ s.start ∧ 0 ≤ s.dur) ∧ SeqFrom (s.start + s.dur) rest

/-! ## Speech-rate analyzer (InterviewScreen.tsx lines 36-40, 86-125) -/

/-- The speechRateDataRef record: `{ peaks, startTime, lastPeakTime }`. -/
structure SpeechRateData where
  peaks : ℕ
  startTime : ℤ
  lastPeakTime : ℤ
  deriving DecidableEq

/-- Nudge categories (types.ts: 'posture' | 'eye-contact' | 'audio' | 'general'). -/
inductive NudgeType where
  | posture
  | eyeContact
  | audio
  | general
  deriving DecidableEq

/-- The peak-count loop (InterviewScreen.tsx lines 116-124): scan the buffer
from index 1, count a rising edge through threshold 0.15 only when more than
150 ms have passed since the last counted peak; `now` is fixed for the whole
invocation.  The accumulator is (peaks, lastPeakTime); `prev` is the sample at
the previous index. -/
def peakLoop (now : ℤ) : ℚ → List ℚ → ℕ × ℤ → ℕ × ℤ
  | _, [], acc => acc
  | prev, x :: rest, acc =>
      if 0.15 < x ∧ prev ≤ 0.15 then
        if 150 < now - acc.2 then peakLoop now x rest (acc.1 + 1, now)
        else peakLoop now x rest acc
      else peakLoop now x rest acc

/-- The window-check phase of analyzeSpeechRate (InterviewScreen.tsx lines
91-108): when the window has aged past 3000 ms, classify the rate (only when
peaks > 2 and the AI is not speaking) and reset the window (peaks := 0,
startTime := now).  Returns the updated record and the advisory trigger
passed to addNudge, if any. -/
def windowCheck (aiSpeaking : Bool) (now : ℤ) (st : SpeechRateData) :
    SpeechRateData × Option (NudgeType × String) :=
  if 3000 < now - st.startTime then
    let durationSec : ℚ := ((now - st.startTime : ℤ) : ℚ) / 1000
    let rate : ℚ := (st.peaks : ℚ) / durationSec
    let trig : Option (NudgeType × String) :=
      if 2 < st.peaks ∧ aiSpeaking = false then
        if 4.5 < rate then some (NudgeType.audio, "Speaking too fast. Breathe.")
        else if rate < 1.5 then
          some (NudgeType.audio, "Sounding uncertain. Project confidence.")
        else none
      else none
    ({ st with peaks := 0, startTime := now }, trig)
  else (st, none)

/-- analyzeSpeechRate (InterviewScreen.tsx lines 86-125): the window-check
phase followed by the peak-count loop over the current buffer, both stamped
with the same `now`.  `aiSpeaking` is the component state read by the
closure. -/
def analyzeSpeechRate (aiSpeaking : Bool) (now : ℤ) (st : SpeechRateData)
    (inputData : List ℚ) : SpeechRateData × Option (NudgeType × String) :=
  let checked := windowCheck aiSpeaking now st
  match inputData with
  | [] => checked
  | x :: rest =>
      let counted := peakLoop now x rest (checked.1.peaks, checked.1.lastPeakTime)
      ({ checked.1 with peaks := counted.1, lastPeakTime := counted.2 }, checked.2)

/-! ## Nudge advisory manager (InterviewScreen.tsx lines 47, 53-68) -/

/-- A Nudge record (types.ts).  The `id` field (`Math.random().toString()`) is
a nondeterministic fresh identifier used only by the timed-removal filter and
is omitted from the model. -/
structure Nudge where
  type : NudgeType
  message : String
  timestamp : ℤ
  deriving DecidableEq

/-- Advisory-manager state: the `nudges` component state and the
`lastNudgeTimeRef` ledger.  The ledger is a total map; an absent entry reads
as 0 via `lastNudgeTimeRef.current[type] || 0`. -/
structure NudgeState where
  nudges : List Nudge
  lastNudgeTime : NudgeType → ℤ

/-- NUDGE_COOLDOWN (constants.ts; its content appears in
src/components/SetupScreen.tsx line 246): `export const NUDGE_COOLDOWN =
30000`, the per-category nudge cooldown in milliseconds. -/
def NUDGE_COOLDOWN : ℤ := 30000

/-- NUDGE_DISPLAY_TIME (constants.ts; its content appears in
src/components/SetupScreen.tsx line 247): `export const NUDGE_DISPLAY_TIME =
5000`, the nudge display duration in milliseconds before the timed removal
fires. -/
def NUDGE_DISPLAY_TIME : ℤ := 5000

/-- addNudge (InterviewScreen.tsx lines 53-68): reject if any nudge is active
(`if (nudges.length > 0) return`), reject if the per-category cooldown has not
elapsed (`if (now - lastTime < NUDGE_COOLDOWN) return`), otherwise replace the
active set with the singleton new nudge and record the firing time.  The timed
removal (setTimeout) is a separate later transition and is not part of this
call. -/
def addNudge (st : NudgeState) (ty : NudgeType) (message : String) (now : ℤ) :
    NudgeState :=
  let lastTime := st.lastNudgeTime ty
  if 0 < st.nudges.length then st
  else if now - lastTime < NUDGE_COOLDOWN then st
  else
    { nudges := [⟨ty, message, now⟩],
      lastNudgeTime := fun t => if t = ty then now else st.lastNudgeTime t }

/-! ## Vision service (visionService.ts lines 3-119) -/

/-- One blendshape category entry (`{ categoryName, score }`). -/
structure Blendshape where
  categoryName : String
  score : ℚ
  deriving DecidableEq

/-- One face's blendshape classification (`faceBlendshapes[i].categories`). -/
structure BlendshapeSet where
  categories : List Blendshape
  deriving DecidableEq

/-- A pose landmark; only the y coordinate is read by the posture check. -/
structure Landmark where
  x : ℚ
  y : ℚ
  z : ℚ
  deriving DecidableEq

/-- Result of faceLandmarker.detectForVideo, restricted to the fields read. -/
structure FaceResult where
  faceBlendshapes : List BlendshapeSet
  deriving DecidableEq

/-- Result of poseLandmarker.detectForVideo, restricted to the fields read. -/
structure PoseResult where
  landmarks : List (List Landmark)
  deriving DecidableEq

/-- findScore (visionService.ts line 80):
`bs.find(b => b.categoryName === name)?.score || 0`. -/
def findScore (bs : List Blendshape) (name : String) : ℚ :=
  ((bs.find? (fun b => b.categoryName = name)).map Blendshape.score).getD 0

/-- The analyze result shape (visionService.ts lines 110-114). -/
structure AnalyzeResult where
  eyeContactIssue : Bool
  postureIssue : Bool
  postureMessage : String
  deriving DecidableEq

/-- The body of the try block in VisionService.analyze after the detections
(visionService.ts lines 72-114).  Reading `landmarks[11].y` or
`landmarks[12].y` when the landmark list is too short throws a TypeError
(undefined property access); that throw is caught by the surrounding try, so
the body yields none in that case. -/
def analyzeBody (face : FaceResult) (pose : PoseResult) : Option AnalyzeResult :=
  let eyeContactIssue :=
    match face.faceBlendshapes.head? with
    | none => false
    | some set =>
        let bs := set.categories
        let lookLeft := findScore bs "eyeLookInLeft" + findScore bs "eyeLookOutRight"
        let lookRight := findScore bs "eyeLookOutLeft" + findScore bs "eyeLookInRight"
        let lookDown := findScore bs "eyeLookDownLeft" + findScore bs "eyeLookDownRight"
        let lookUp := findScore bs "eyeLookUpLeft" + findScore bs "eyeLookUpRight"
        if 0.8 < lookLeft ∨ 0.8 < lookRight ∨ 0.6 < lookDown ∨ 0.6 < lookUp then
          true
        else false
  match pose.landmarks.head? with
  | none => some ⟨eyeContactIssue, false, ""⟩
  | some lms =>
      match lms.get? 11, lms.get? 12 with
      | some leftShoulder, some rightShoulder =>
          let yDiff := |leftShoulder.y - rightShoulder.y|
          if 0.15 < yDiff then
            some ⟨eyeContactIssue, true, "You\x27re tilting your shoulders."⟩
          else some ⟨eyeContactIssue, false, ""⟩
      | _, _ => none

/-- VisionService mutable state (visionService.ts lines 4-12): the landmarker
null checks are folded into isInitialized, which is exactly when both
landmarkers are non-null. -/
structure VisionState where
  isInitialized : Bool
  lastTimestamp : ℚ
  totalFrames : ℕ
  eyeContactFrames : ℕ
  goodPostureFrames : ℕ
  deriving DecidableEq

/-- VisionService.analyze (visionService.ts lines 57-119).  `detect` is the
outcome of the two detectForVideo calls on the current frame (none when the
external detector throws).  Returns the new state, the result, and whether the
underlying detection was invoked.  The timestamp guard returns null before
updating lastTimestamp or touching the counters; on the detection path
lastTimestamp is updated before the try block, and the counters are
incremented only after a successful body. -/
def VisionService.analyze (st : VisionState)
    (detect : Option (FaceResult × PoseResult)) (timestamp : ℚ) :
    VisionState × Option AnalyzeResult × Bool :=
  if st.isInitialized = false then (st, none, false)
  else if timestamp ≤ st.lastTimestamp ∨ timestamp ≤ 0 then (st, none, false)
  else
    let st1 := { st with lastTimestamp := timestamp }
    match detect with
    | none => (st1, none, true)
    | some fp =>
        match analyzeBody fp.1 fp.2 with
        | none => (st1, none, true)
        | some r =>
            ({ st1 with
                totalFrames := st1.totalFrames + 1,
                eyeContactFrames :=
                  st1.eyeContactFrames + (if r.eyeContactIssue then 0 else 1),
                goodPostureFrames :=
                  st1.goodPostureFrames + (if r.postureIssue then 0 else 1) },
              some r, true)

/-! ## Report generation and fallback (geminiService.ts lines 37-75;
src/unnamed/part_000 ReportScreen lines 36-65) -/

/-- The eleven dimension scores of ReportData (types.ts). -/
structure ReportDimensions where
  firstImpression : ℕ
  communicationClarity : ℕ
  technicalKnowledge : ℕ
  behavioralExamples : ℕ
  eyeContact : ℕ
  posturePresence : ℕ
  voiceTone : ℕ
  fillerWords : ℕ
  questionHandling : ℕ
  enthusiasm : ℕ
  closingStrength : ℕ
  deriving DecidableEq

/-- The feedback lists of ReportData (types.ts). -/
structure ReportFeedback where
  wentWell : List String
  needsWork : List String
  improvementPlan : List String
  deriving DecidableEq

/-- ReportData (types.ts). -/
structure ReportData where
  overallScore : ℕ
  dimensions : ReportDimensions
  feedback : ReportFeedback
  transcriptSummary : String
  deriving DecidableEq

/-- The fallback report literal from the ReportScreen catch handler
(src/unnamed/part_000 lines 44-57). -/
def fallbackReport : ReportData :=
  { overallScore := 75,
    dimensions :=
      { firstImpression := 8, communicationClarity := 7, technicalKnowledge := 8,
        behavioralExamples := 6, eyeContact := 9, posturePresence := 8,
        voiceTone := 7, fillerWords := 12, questionHandling := 7,
        enthusiasm := 8, closingStrength := 6 },
    feedback :=
      { wentWell := ["Great eye contact throughout.",
                     "Solid technical understanding of the role."],
        needsWork := ["Structured answers better (use STAR).",
                      "Closing was a bit abrupt."],
        improvementPlan := ["Practice the STAR method for behavioral questions.",
                            "Prepare 2-3 questions for the interviewer."] },
    transcriptSummary :=
      "The interview covered the candidate\x27s background and technical skills. Some hesitation on behavioral questions." }

/-- generateReport (geminiService.ts lines 37-75) as a function of the remote
collaborator outcome.  `api` is the generateContent result: error when the
remote call throws, ok with the response text otherwise; `response.text ||
"\x7b\x7d"` substitutes an empty-object JSON text when the response text is
empty.  `parse` models JSON.parse followed by the ReportData cast: none when
the text is unparseable, in which case the throw propagates out through the
catch (which logs and rethrows). -/
def generateReport (api : Except Unit String)
    (parse : String → Option ReportData) : Except Unit ReportData :=
  match api with
  | Except.error _ => Except.error ()
  | Except.ok text =>
      let jsonText := if text = "" then "\x7b\x7d" else text
      match parse jsonText with
      | none => Except.error ()
      | some d => Except.ok d

/-- The generate effect in ReportScreen (src/unnamed/part_000 lines 37-57):
the report put on screen is the generated one on success and the fallback
literal when generateReport throws. -/
def reportScreenGenerate (api : Except Unit String)
    (parse : String → Option ReportData) : ReportData :=
  match generateReport api parse with
  | Except.ok d => d
  | Except.error _ => fallbackReport

/-- A JSON value, for stating schema validity of the report literal. -/
inductive Json where
  | null
  | bool (b : Bool)
  | num (q : ℚ)
  | str (s : String)
  | arr (items : List Json)
  | obj (fields : List (String × Json))

/-- Look up a key in a JSON object's field list. -/
def jsonLookup (fields : List (String × Json)) (key : String) : Option Json :=
  (fields.find? (fun p => p.1 = key)).map Prod.snd

/-- Does an (optional) JSON value exist and have NUMBER type? -/
def jsonIsNum : Option Json → Bool
  | some (Json.num _) => true
  | _ => false

/-- Does an (optional) JSON value exist and have type ARRAY with STRING
items? -/
def jsonIsStrArr : Option Json → Bool
  | some (Json.arr items) =>
      items.all (fun j => match j with | Json.str _ => true | _ => false)
  | _ => false

/-- REPORT_JSON_SCHEMA (constants.ts; its content appears in
src/components/SetupScreen.tsx lines 210-243) as a validator: the value must
be an OBJECT carrying the required fields overallScore (NUMBER), dimensions
(OBJECT with the eleven required NUMBER fields), feedback (OBJECT with the
three required ARRAY-of-STRING fields) and transcriptSummary (STRING). -/
def matchesReportSchema : Json → Bool
  | Json.obj fields =>
      jsonIsNum (jsonLookup fields "overallScore") &&
      (match jsonLookup fields "dimensions" with
       | some (Json.obj dims) =>
           ["firstImpression", "communicationClarity", "technicalKnowledge",
            "behavioralExamples", "eyeContact", "posturePresence", "voiceTone",
            "fillerWords", "questionHandling", "enthusiasm",
            "closingStrength"].all (fun k => jsonIsNum (jsonLookup dims k))
       | _ => false) &&
      (match jsonLookup fields "feedback" with
       | some (Json.obj fb) =>
           ["wentWell", "needsWork", "improvementPlan"].all
             (fun k => jsonIsStrArr (jsonLookup fb k))
       | _ => false) &&
      (match jsonLookup fields "transcriptSummary" with
       | some (Json.str _) => true
       | _ => false)
  | _ => false

/-- The JSON form of a ReportData record (the shape described by types.ts and
consumed by the ReportScreen). -/
def reportDataToJson (r : ReportData) : Json :=
  Json.obj
    [("overallScore", Json.num (r.overallScore : ℚ)),
     ("dimensions", Json.obj
        [("firstImpression", Json.num (r.dimensions.firstImpression : ℚ)),
         ("communicationClarity", Json.num (r.dimensions.communicationClarity : ℚ)),
         ("technicalKnowledge", Json.num (r.dimensions.technicalKnowledge : ℚ)),
         ("behavioralExamples", Json.num (r.dimensions.behavioralExamples : ℚ)),
         ("eyeContact", Json.num (r.dimensions.eyeContact : ℚ)),
         ("posturePresence", Json.num (r.dimensions.posturePresence : ℚ)),
         ("voiceTone", Json.num (r.dimensions.voiceTone : ℚ)),
         ("fillerWords", Json.num (r.dimensions.fillerWords : ℚ)),
         ("questionHandling", Json.num (r.dimensions.questionHandling : ℚ)),
         ("enthusiasm", Json.num (r.dimensions.enthusiasm : ℚ)),
         ("closingStrength", Json.num (r.dimensions.closingStrength : ℚ))]),
     ("feedback", Json.obj
        [("wentWell", Json.arr (r.feedback.wentWell.map Json.str)),
         ("needsWork", Json.arr (r.feedback.needsWork.map Json.str)),
         ("improvementPlan", Json.arr (r.feedback.improvementPlan.map Json.str))]),
     ("transcriptSummary", Json.str r.transcriptSummary)]

/-! ## Helper lemmas: PCM codec -/

theorem toInt16_range (q : ℚ) : -32768 ≤ toInt16 q ∧ toInt16 q ≤ 32767 := by
  simp only [toInt16]
  have h1 : 0 ≤ truncQ q % 65536 :=
    Int.emod_nonneg _ (by norm_num)
  have h2 : truncQ q % 65536 < 65536 :=
    Int.emod_lt_of_pos _ (by norm_num)
  split <;> omega

theorem toInt16_eq_truncQ (q : ℚ) (h1 : -32768 ≤ truncQ q)
    (h2 : truncQ q ≤ 32767) : toInt16 q = truncQ q := by
  simp only [toInt16]
  have h3 : 0 ≤ truncQ q % 65536 :=
    Int.emod_nonneg _ (by norm_num)
  have h4 : truncQ q % 65536 < 65536 :=
    Int.emod_lt_of_pos _ (by norm_num)
  split <;> omega

theorem pcmSample_range (x : ℚ) : -32768 ≤ pcmSample x ∧ pcmSample x ≤ 32767 :=
  toInt16_range _

theorem clamp_eq_self (x : ℚ) (h1 : -1 ≤ x) (h2 : x ≤ 1) :
    max (-1 : ℚ) (min 1 x) = x := by
  rw [min_eq_right h2, max_eq_right h1]

theorem pcmSample_neg_eq (x : ℚ) (h1 : -1 ≤ x) (hx : x < 0) :
    pcmSample x = ⌈x * 32768⌉ := by
  simp only [pcmSample]
  rw [clamp_eq_self x h1 (by linarith), if_pos hx]
  have harg : x * 32768 < 0 := by nlinarith
  have htr : truncQ (x * 32768) = ⌈x * 32768⌉ := by
    simp only [truncQ]
    rw [if_neg (not_le.mpr harg)]
  have hlo : -32768 ≤ truncQ (x * 32768) := by
    rw [htr]
    have hc : ((-32768 : ℤ) : ℚ) ≤ x * 32768 := by push_cast; nlinarith
    have hm := Int.ceil_mono hc
    rw [Int.ceil_intCast] at hm
    exact hm
  have hhi : truncQ (x * 32768) ≤ 32767 := by
    rw [htr]
    have hz : ⌈x * 32768⌉ ≤ (0 : ℤ) := Int.ceil_le.mpr (by push_cast; nlinarith)
    omega
  rw [toInt16_eq_truncQ _ hlo hhi, htr]

theorem pcmSample_nonneg_eq (x : ℚ) (h0 : 0 ≤ x) (h2 : x ≤ 1) :
    pcmSample x = ⌊x * 32767⌋ := by
  simp only [pcmSample]
  rw [clamp_eq_self x (by linarith) h2, if_neg (not_lt.mpr h0)]
  have htr : truncQ (x * 32767) = ⌊x * 32767⌋ := by
    simp only [truncQ]
    rw [if_pos (by nlinarith)]
  have hlo : -32768 ≤ truncQ (x * 32767) := by
    rw [htr]
    have hz : (0 : ℤ) ≤ ⌊x * 32767⌋ := Int.le_floor.mpr (by push_cast; nlinarith)
    omega
  have hhi : truncQ (x * 32767) ≤ 32767 := by
    rw [htr]
    have hc : x * 32767 ≤ ((32767 : ℤ) : ℚ) := by push_cast; nlinarith
    have hm := Int.floor_mono hc
    rw [Int.floor_intCast] at hm
    exact hm
  rw [toInt16_eq_truncQ _ hlo hhi, htr]

theorem pairToInt16_bytes (v : ℤ) (h1 : -32768 ≤ v) (h2 : v ≤ 32767) :
    pairToInt16 ((v % 65536).toNat % 256) ((v % 65536).toNat / 256) = v := by
  simp only [pairToInt16]
  have h3 : 0 ≤ v % 65536 := Int.emod_nonneg _ (by norm_num)
  have h4 : v % 65536 < 65536 := Int.emod_lt_of_pos _ (by norm_num)
  have h5 : ((v % 65536).toNat : ℤ) = v % 65536 := Int.toNat_of_nonneg h3
  split <;> omega

theorem decodeSamples_cons (v : ℤ) (bs : List ℕ) :
    decodeSamples (int16ToBytes v ++ bs) =
      int16ToFloat (pairToInt16 ((v % 65536).toNat % 256) ((v % 65536).toNat / 256)) ::
        decodeSamples bs := by
  simp only [int16ToBytes, List.cons_append, List.nil_append, decodeSamples,
    bytesToInt16s, List.map_cons, List.append_eq]

theorem decodeSamples_encode (xs : List ℚ) :
    decodeSamples (floatTo16BitPCM xs) =
      xs.map (fun x => int16ToFloat (pcmSample x)) := by
  induction xs with
  | nil => rfl
  | cons x xs ih =>
      have hr := pcmSample_range x
      have hcons : floatTo16BitPCM (x :: xs) =
          int16ToBytes (pcmSample x) ++ floatTo16BitPCM xs := by
        simp [floatTo16BitPCM]
      rw [hcons, decodeSamples_cons, pairToInt16_bytes _ hr.1 hr.2, ih,
        List.map_cons]

theorem pcm_error (x : ℚ) (h1 : -1 ≤ x) (h2 : x ≤ 1) :
    |x - int16ToFloat (pcmSample x)| ≤ 2 / 32768 := by
  by_cases hx : x < 0
  · rw [pcmSample_neg_eq x h1 hx]
    have hn1 : x * 32768 ≤ (⌈x * 32768⌉ : ℚ) := Int.le_ceil _
    have hn2 : (⌈x * 32768⌉ : ℚ) < x * 32768 + 1 := Int.ceil_lt_add_one _
    simp only [int16ToFloat]
    have hd : (⌈x * 32768⌉ : ℚ) / 32768 * 32768 = (⌈x * 32768⌉ : ℚ) :=
      div_mul_cancel₀ _ (by norm_num)
    rw [abs_le]
    constructor <;> nlinarith [hd, hn1, hn2]
  · push_neg at hx
    rw [pcmSample_nonneg_eq x hx h2]
    have hn1 : (⌊x * 32767⌋ : ℚ) ≤ x * 32767 := Int.floor_le _
    have hn2 : x * 32767 < (⌊x * 32767⌋ : ℚ) + 1 := Int.lt_floor_add_one _
    simp only [int16ToFloat]
    have hd : (⌊x * 32767⌋ : ℚ) / 32768 * 32768 = (⌊x * 32767⌋ : ℚ) :=
      div_mul_cancel₀ _ (by norm_num)
    rw [abs_le]
    constructor <;> nlinarith [hd, hn1, hn2]

theorem getD_map_of_lt (f : ℚ → ℚ) :
    ∀ (l : List ℚ) (i : ℕ), i < l.length → (l.map f).getD i 0 = f (l.getD i 0) := by
  intro l
  induction l with
  | nil => intro i hi; simp at hi
  | cons x xs ih =>
      intro i hi
      cases i with
      | zero => rfl
      | succ n =>
          simp only [List.map_cons, List.getD_cons_succ]
          exact ih n (by simpa using hi)

theorem getD_mem_of_lt :
    ∀ (l : List ℚ) (i : ℕ), i < l.length → l.getD i 0 ∈ l := by
  intro l
  induction l with
  | nil => intro i hi; simp at hi
  | cons x xs ih =>
      intro i hi
      cases i with
      | zero => simp
      | succ n =>
          simp only [List.getD_cons_succ]
          exact List.mem_cons_of_mem _ (ih n (by simpa using hi))

/-! ## Claim theorems: PCM codec (C2, C3) -/

/-- Claim C2 (code bug): sendAudioChunk does not encode as the PCM codec
specifies.  At the in-range sample +1.0 the transmitted conversion
`float32Data[i] * 32768` wraps to -32768 (no clamping, and the non-negative
branch is not scaled by 32767), whereas the codec helper floatTo16BitPCM --
defined in the same file but never called by sendAudioChunk -- produces 32767
(bytes 255, 127 little-endian). -/
theorem sendAudioChunk_overflow_at_one :
    ((-1 : ℚ) ≤ 1 ∧ (1 : ℚ) ≤ 1) ∧
    sendAudioChunk [(1 : ℚ)] = [-32768] ∧
    pcmSample 1 = 32767 ∧
    floatTo16BitPCM [(1 : ℚ)] = [255, 127] := by
  have hs : pcmSample 1 = 32767 := by
    simp only [pcmSample]
    norm_num [toInt16, truncQ]
  refine ⟨by norm_num, ?_, hs, ?_⟩
  · simp only [sendAudioChunk, List.map_cons, List.map_nil]
    norm_num [toInt16, truncQ]
  · simp only [floatTo16BitPCM, List.flatMap_cons, List.flatMap_nil,
      List.append_nil, hs]
    norm_num [int16ToBytes]
    decide

/-- Claim C3 counterexample: at the in-range sample 0.9 the decode of the
encode differs from the original by 12/327680, which exceeds the claimed
quantization bound 1/32768 = 10/327680.  (Encode scales non-negatives by
32767 but decode divides by 32768, adding a bias of up to x/32768 on top of
the truncation error.) -/
theorem pcm_roundtrip_error_exceeds_quantum :
    ((-1 : ℚ) ≤ 9 / 10 ∧ (9 / 10 : ℚ) ≤ 1) ∧
    decodeSamples (floatTo16BitPCM [(9 / 10 : ℚ)]) = [29490 / 32768] ∧
    ¬ |(9 / 10 : ℚ) - 29490 / 32768| ≤ 1 / 32768 := by
  refine ⟨by norm_num, ?_, ?_⟩
  · rw [decodeSamples_encode]
    simp only [List.map_cons, List.map_nil]
    rw [show pcmSample (9 / 10) = 29490 by simp only [pcmSample]; norm_num [toInt16, truncQ]]
    norm_num [int16ToFloat]
  · rw [abs_of_nonneg (by norm_num)]
    norm_num

/-- Claim C3 (amended): for every sample sequence with values in [-1, 1],
decoding the 16-bit PCM encoding (floatTo16BitPCM then the divide-by-32768
decode loop) yields a sequence of the same length whose per-sample absolute
difference from the original is at most 2/32768 (not 1/32768: encoding
non-negatives by 32767 while decoding by 32768 adds a bias of up to x/32768
to the truncation error of up to 1/32768). -/
theorem pcm_roundtrip_error_le_two_quanta (xs : List ℚ)
    (h : ∀ x ∈ xs, -1 ≤ x ∧ x ≤ 1) :
    (decodeSamples (floatTo16BitPCM xs)).length = xs.length ∧
    ∀ i, i < xs.length →
      |xs.getD i 0 - (decodeSamples (floatTo16BitPCM xs)).getD i 0| ≤ 2 / 32768 := by
  rw [decodeSamples_encode]
  constructor
  · exact List.length_map _ _
  · intro i hi
    rw [getD_map_of_lt _ xs i hi]
    have hm := getD_mem_of_lt xs i hi
    exact pcm_error _ (h _ hm).1 (h _ hm).2

/-- Witness for C3's amended theorem at the one-sample sequence [1/2]. -/
theorem pcm_roundtrip_error_le_two_quanta_witness :
    ((-1 : ℚ) ≤ 1 / 2 ∧ (1 / 2 : ℚ) ≤ 1) ∧
    (decodeSamples (floatTo16BitPCM [(1 / 2 : ℚ)])).length = [(1 / 2 : ℚ)].length ∧
    |[(1 / 2 : ℚ)].getD 0 0 -
        (decodeSamples (floatTo16BitPCM [(1 / 2 : ℚ)])).getD 0 0| ≤ 2 / 32768 := by
  have h := pcm_roundtrip_error_le_two_quanta [(1 / 2 : ℚ)]
    (by intro x hx; rw [List.mem_singleton] at hx; subst hx; constructor <;> norm_num)
  exact ⟨by norm_num, h.1, h.2 0 (by norm_num)⟩

/-! ## Helper lemmas: playback scheduler -/

theorem onAudioData_none (cursor : ℚ) (ev : AudioEvent)
    (h : decodePCMData ev.payload = none) :
    onAudioData cursor ev = (max cursor ev.clock, none) := by
  simp only [onAudioData, h]

theorem onAudioData_some (cursor : ℚ) (ev : AudioEvent) (samples : List ℚ)
    (h : decodePCMData ev.payload = some samples) :
    onAudioData cursor ev =
      (max cursor ev.clock + (samples.length : ℚ) / 24000,
        some ⟨max cursor ev.clock, (samples.length : ℚ) / 24000⟩) := by
  simp only [onAudioData, h]

theorem onAudioData_cursor_le (cursor : ℚ) (ev : AudioEvent) :
    cursor ≤ (onAudioData cursor ev).1 := by
  cases h : decodePCMData ev.payload with
  | none =>
      rw [onAudioData_none cursor ev h]
      exact le_max_left _ _
  | some samples =>
      rw [onAudioData_some cursor ev samples h]
      have hd : (0 : ℚ) ≤ (samples.length : ℚ) / 24000 := by positivity
      calc cursor ≤ max cursor ev.clock := le_max_left _ _
        _ ≤ max cursor ev.clock + (samples.length : ℚ) / 24000 :=
            le_add_of_nonneg_right hd

theorem seqFrom_mono (c c' : ℚ) (h : c' ≤ c) :
    ∀ l : List Segment, SeqFrom c l → SeqFrom c' l := by
  intro l hl
  cases l with
  | nil => trivial
  | cons s rest =>
      obtain ⟨⟨h1, h2⟩, h3⟩ := hl
      exact ⟨⟨le_trans h h1, h2⟩, h3⟩

theorem runPlayback_seqFrom (evs : List AudioEvent) :
    ∀ c : ℚ, SeqFrom c (runPlayback c evs).2 := by
  induction evs with
  | nil => intro c; trivial
  | cons ev rest ih =>
      intro c
      cases h : decodePCMData ev.payload with
      | none =>
          have hstep := onAudioData_none c ev h
          simp only [runPlayback, hstep]
          exact seqFrom_mono _ _ (le_max_left _ _) _ (ih (max c ev.clock))
      | some samples =>
          have hstep := onAudioData_some c ev samples h
          simp only [runPlayback, hstep]
          refine ⟨⟨le_max_left _ _, by positivity⟩, ?_⟩
          exact ih (max c ev.clock + (samples.length : ℚ) / 24000)

theorem seqFrom_chain (l : List Segment) :
    ∀ c : ℚ, SeqFrom c l →
      List.Chain' (fun a b => a.start + a.dur ≤ b.start) l := by
  induction l with
  | nil => intro c _; simp
  | cons s rest ih =>
      intro c hl
      obtain ⟨⟨h1, h2⟩, h3⟩ := hl
      rw [List.chain'_cons']
      constructor
      · intro b hb
        cases rest with
        | nil => simp at hb
        | cons t ts =>
            simp only [List.head?_cons, Option.mem_def, Option.some.injEq] at hb
            subst hb
            exact h3.1.1
      · exact ih _ h3

/-! ## Claim theorems: playback scheduler (C1, C7) -/

/-- Claim C1: each scheduled segment starts at max(cursor, playback clock);
the cursor is then advanced by exactly that segment's duration and never
decreases across any delivery; consequently consecutive scheduled segments
never overlap (each segment starts no earlier than the previous start plus
the previous duration), for every delivery sequence and arrival timing. -/
theorem playback_scheduler_monotonic :
    (∀ (c : ℚ) (ev : AudioEvent), c ≤ (onAudioData c ev).1) ∧
    (∀ (c : ℚ) (ev : AudioEvent) (seg : Segment),
      (onAudioData c ev).2 = some seg →
        seg.start = max c ev.clock ∧ (onAudioData c ev).1 = seg.start + seg.dur) ∧
    (∀ (c : ℚ) (evs : List AudioEvent),
      List.Chain' (fun a b => a.start + a.dur ≤ b.start) (runPlayback c evs).2) := by
  refine ⟨onAudioData_cursor_le, ?_, ?_⟩
  · intro c ev seg h
    cases hdec : decodePCMData ev.payload with
    | none => rw [onAudioData_none c ev hdec] at h; exact absurd h (by simp)
    | some samples =>
        rw [onAudioData_some c ev samples hdec] at h ⊢
        obtain rfl : (⟨max c ev.clock, (samples.length : ℚ) / 24000⟩ : Segment) = seg := by
          simpa using h
        exact ⟨rfl, rfl⟩
  · intro c evs
    exact seqFrom_chain _ c (runPlayback_seqFrom evs c)

/-- Witness for C1 at a concrete two-delivery run (payload [0, 0] decodes to
one zero sample of duration 1/24000). -/
theorem playback_scheduler_monotonic_witness :
    ((0 : ℚ) ≤ (onAudioData 0 ⟨2, [0, 0]⟩).1) ∧
    ((onAudioData 0 ⟨2, [0, 0]⟩).2 =
        some ⟨max 0 (2 : ℚ), ((1 : ℕ) : ℚ) / 24000⟩ ∧
      (⟨max 0 (2 : ℚ), ((1 : ℕ) : ℚ) / 24000⟩ : Segment).start = max 0 (2 : ℚ) ∧
      (onAudioData 0 ⟨2, [0, 0]⟩).1 =
        (⟨max 0 (2 : ℚ), ((1 : ℕ) : ℚ) / 24000⟩ : Segment).start +
          (⟨max 0 (2 : ℚ), ((1 : ℕ) : ℚ) / 24000⟩ : Segment).dur) ∧
    List.Chain' (fun a b => a.start + a.dur ≤ b.start)
      (runPlayback 0 [⟨2, [0, 0]⟩, ⟨1, [0, 0]⟩]).2 := by
  have h := playback_scheduler_monotonic
  have hdec : decodePCMData [0, 0] = some [(0 : ℚ)] := by
    simp only [decodePCMData, decodeSamples, bytesToInt16s, pairToInt16]
    norm_num [int16ToFloat]
  have hsome : (onAudioData 0 ⟨2, [0, 0]⟩).2 =
      some ⟨max 0 (2 : ℚ), ((1 : ℕ) : ℚ) / 24000⟩ := by
    rw [onAudioData_some 0 ⟨2, [0, 0]⟩ [(0 : ℚ)] hdec]
    simp
  exact ⟨h.1 0 ⟨2, [0, 0]⟩, ⟨hsome, h.2.1 0 ⟨2, [0, 0]⟩ _ hsome⟩,
    h.2.2 0 [⟨2, [0, 0]⟩, ⟨1, [0, 0]⟩]⟩

/-- Claim C7 counterexample: with cursor 0, playback clock 5 and a malformed
one-byte payload (odd byte length, so `new Int16Array(buffer)` throws), the
handler schedules nothing but the cursor afterwards is 5, not its previous
value 0: the pre-decode clamp `nextStartTime = max(nextStartTime, currentTime)`
runs before the try block, so a failed decode can still raise the cursor. -/
theorem decode_failure_cursor_clamped :
    decodePCMData [7] = none ∧
    onAudioData 0 ⟨5, [7]⟩ = (5, none) ∧
    (5 : ℚ) ≠ 0 := by
  have hdec : decodePCMData [7] = none := by simp [decodePCMData]
  refine ⟨hdec, ?_, by norm_num⟩
  rw [onAudioData_none 0 ⟨5, [7]⟩ hdec]
  norm_num

/-- Claim C7 (amended): on a decode failure the segment is dropped (nothing is
scheduled) and the cursor is not advanced by any segment duration; however the
pre-decode clamp has already run, so the cursor after the failed call equals
max(its value before the call, the playback clock at the call) rather than its
previous value. -/
theorem decode_failure_drops_segment (cursor : ℚ) (ev : AudioEvent)
    (h : decodePCMData ev.payload = none) :
    onAudioData cursor ev = (max cursor ev.clock, none) :=
  onAudioData_none cursor ev h

/-- Witness for C7's amended theorem at cursor 0, clock 5, payload [7]. -/
theorem decode_failure_drops_segment_witness :
    decodePCMData ([7] : List ℕ) = none ∧
    onAudioData 0 ⟨5, [7]⟩ = (max (0 : ℚ) 5, none) := by
  have hdec : decodePCMData ([7] : List ℕ) = none := by simp [decodePCMData]
  exact ⟨hdec, decode_failure_drops_segment 0 ⟨5, [7]⟩ hdec⟩

/-! ## Helper lemmas: speech-rate analyzer -/

theorem peakLoop_stamped (now : ℤ) :
    ∀ (rest : List ℚ) (x : ℚ) (p : ℕ), peakLoop now x rest (p, now) = (p, now) := by
  intro rest
  induction rest with
  | nil => intro x p; rfl
  | cons y ys ih =>
      intro x p
      have h150 : ¬ (150 < now - now) := by omega
      by_cases hc : (0.15 : ℚ) < y ∧ x ≤ 0.15
      · simp only [peakLoop]
        rw [if_pos hc, if_neg h150]
        exact ih y p
      · simp only [peakLoop]
        rw [if_neg hc]
        exact ih y p

theorem peakLoop_le (now : ℤ) :
    ∀ (rest : List ℚ) (x : ℚ) (p : ℕ) (lp : ℤ),
      (peakLoop now x rest (p, lp)).1 ≤ p + 1 := by
  intro rest
  induction rest with
  | nil => intro x p lp; exact Nat.le_succ p
  | cons y ys ih =>
      intro x p lp
      by_cases hc : (0.15 : ℚ) < y ∧ x ≤ 0.15
      · by_cases h150 : 150 < now - lp
        · simp only [peakLoop]
          rw [if_pos hc, if_pos h150, peakLoop_stamped now ys y (p + 1)]
        · simp only [peakLoop]
          rw [if_pos hc, if_neg h150]
          exact ih y p lp
      · simp only [peakLoop]
        rw [if_neg hc]
        exact ih y p lp

theorem windowCheck_expired (a : Bool) (now : ℤ) (st : SpeechRateData)
    (h : 3000 < now - st.startTime) :
    windowCheck a now st =
      ({ st with peaks := 0, startTime := now },
        if 2 < st.peaks ∧ a = false then
          if 4.5 < (st.peaks : ℚ) / (((now - st.startTime : ℤ) : ℚ) / 1000) then
            some (NudgeType.audio, "Speaking too fast. Breathe.")
          else if (st.peaks : ℚ) / (((now - st.startTime : ℤ) : ℚ) / 1000) < 1.5 then
            some (NudgeType.audio, "Sounding uncertain. Project confidence.")
          else none
        else none) := by
  simp only [windowCheck]
  rw [if_pos h]

theorem analyzeSpeechRate_trigger (a : Bool) (now : ℤ) (st : SpeechRateData)
    (buf : List ℚ) :
    (analyzeSpeechRate a now st buf).2 = (windowCheck a now st).2 := by
  cases buf with
  | nil => rfl
  | cons x rest => rfl

theorem analyzeSpeechRate_state_expired (a : Bool) (now : ℤ)
    (st : SpeechRateData) (buf : List ℚ) (h : 3000 < now - st.startTime) :
    (analyzeSpeechRate a now st buf).1.startTime = now ∧
    (analyzeSpeechRate a now st buf).1.peaks ≤ 1 := by
  cases buf with
  | nil =>
      simp only [analyzeSpeechRate, windowCheck_expired a now st h]
      exact ⟨trivial, by omega⟩
  | cons x rest =>
      simp only [analyzeSpeechRate, windowCheck_expired a now st h]
      refine ⟨trivial, ?_⟩
      have := peakLoop_le now rest x 0 st.lastPeakTime
      simpa using this

/-! ## Claim theorems: speech-rate analyzer (C4, C10) -/

/-- Claim C4 counterexample: with the AI currently speaking, a window of 20
peaks over 3001 ms (rate about 6.66/s, above 4.5, with well over 2 peaks)
fires no trigger, because the code also requires `!aiSpeaking`, which the
claim omits. -/
theorem speech_rate_suppressed_while_ai_speaking :
    (3000 : ℤ) < 3001 - (⟨20, 0, 0⟩ : SpeechRateData).startTime ∧
    2 < (⟨20, 0, 0⟩ : SpeechRateData).peaks ∧
    (4.5 : ℚ) < ((⟨20, 0, 0⟩ : SpeechRateData).peaks : ℚ) /
        (((3001 - (⟨20, 0, 0⟩ : SpeechRateData).startTime : ℤ) : ℚ) / 1000) ∧
    (analyzeSpeechRate true 3001 ⟨20, 0, 0⟩ []).2 = none := by
  refine ⟨by norm_num, by norm_num, by push_cast; norm_num, ?_⟩
  rw [analyzeSpeechRate_trigger,
    windowCheck_expired true 3001 ⟨20, 0, 0⟩ (by norm_num)]
  simp

/-- Claim C4 (amended, restricted to buffers processed while the AI is not
currently speaking, the operating condition stated in the spec's analyzer
preamble that the claim omits): whenever the window age exceeds 3000 ms, the
analyzer computes rate = peakCount / elapsedSeconds and, only if
peakCount > 2, emits the "too fast" trigger exactly when rate > 4.5 and the
"uncertain/low energy" trigger exactly when rate < 1.5 (no trigger
otherwise); the window is reset (windowStartTime = now, and peak counting
restarts from zero on the current buffer, so at most one peak carries into the
fresh window).  In particular 10 peaks over 3 seconds fire no trigger and 20
peaks over 3 seconds fire "too fast" once for the window. -/
theorem speech_rate_window_classification (now : ℤ) (st : SpeechRateData)
    (buf : List ℚ) (h : 3000 < now - st.startTime) :
    ((analyzeSpeechRate false now st buf).2 =
        some (NudgeType.audio, "Speaking too fast. Breathe.") ↔
      2 < st.peaks ∧
        4.5 < (st.peaks : ℚ) / (((now - st.startTime : ℤ) : ℚ) / 1000)) ∧
    ((analyzeSpeechRate false now st buf).2 =
        some (NudgeType.audio, "Sounding uncertain. Project confidence.") ↔
      2 < st.peaks ∧
        (st.peaks : ℚ) / (((now - st.startTime : ℤ) : ℚ) / 1000) < 1.5) ∧
    ((analyzeSpeechRate false now st buf).2 = none ↔
      ¬ (2 < st.peaks ∧
        (4.5 < (st.peaks : ℚ) / (((now - st.startTime : ℤ) : ℚ) / 1000) ∨
          (st.peaks : ℚ) / (((now - st.startTime : ℤ) : ℚ) / 1000) < 1.5))) ∧
    (analyzeSpeechRate false now st buf).1.startTime = now ∧
    (analyzeSpeechRate false now st buf).1.peaks ≤ 1 := by
  have hst := analyzeSpeechRate_state_expired false now st buf h
  have hmsg : ("Speaking too fast. Breathe." : String) ≠
      "Sounding uncertain. Project confidence." := by decide
  rw [analyzeSpeechRate_trigger, windowCheck_expired false now st h]
  set r : ℚ := (st.peaks : ℚ) / (((now - st.startTime : ℤ) : ℚ) / 1000) with hr
  refine ⟨?_, ?_, ?_, hst.1, hst.2⟩ <;>
    by_cases hp : 2 < st.peaks <;>
    by_cases h45 : (4.5 : ℚ) < r <;>
    by_cases h15 : r < (1.5 : ℚ) <;>
    simp [hp, h45, h15, hmsg] <;>
    linarith

/-- Witness for C4's amended theorem: 20 peaks over 3001 ms with the AI not
speaking fires the "too fast" trigger and resets the window. -/
theorem speech_rate_window_classification_witness :
    (3000 : ℤ) < 3001 - (⟨20, 0, 0⟩ : SpeechRateData).startTime ∧
    (analyzeSpeechRate false 3001 ⟨20, 0, 0⟩ []).2 =
      some (NudgeType.audio, "Speaking too fast. Breathe.") ∧
    (analyzeSpeechRate false 3001 ⟨20, 0, 0⟩ []).1.startTime = 3001 ∧
    (analyzeSpeechRate false 3001 ⟨20, 0, 0⟩ []).1.peaks ≤ 1 := by
  have h := speech_rate_window_classification 3001 ⟨20, 0, 0⟩ [] (by norm_num)
  exact ⟨by norm_num, h.1.mpr ⟨by norm_num, by push_cast; norm_num⟩,
    h.2.2.2.1, h.2.2.2.2⟩

/-- Claim C10: a single invocation of the analyzer on one buffer increases the
peak count by at most 1, however many qualifying threshold crossings the
buffer contains: every crossing is stamped with the same per-invocation time,
and after the first counted peak the 150 ms refractory check compares that
time with itself. -/
theorem speech_rate_peak_increment_le_one (a : Bool) (now : ℤ)
    (st : SpeechRateData) (buf : List ℚ) :
    (analyzeSpeechRate a now st buf).1.peaks ≤ st.peaks + 1 := by
  have hw : (windowCheck a now st).1.peaks ≤ st.peaks := by
    simp only [windowCheck]
    split
    · simp
    · simp
  cases buf with
  | nil => exact le_trans hw (Nat.le_succ _)
  | cons x rest =>
      have hloop := peakLoop_le now rest x (windowCheck a now st).1.peaks
        (windowCheck a now st).1.lastPeakTime
      calc (analyzeSpeechRate a now st (x :: rest)).1.peaks
          = (peakLoop now x rest ((windowCheck a now st).1.peaks,
              (windowCheck a now st).1.lastPeakTime)).1 := rfl
        _ ≤ (windowCheck a now st).1.peaks + 1 := hloop
        _ ≤ st.peaks + 1 := by omega

/-! ## Claim theorems: nudge advisory manager (C5, C6) -/

/-- Claim C5: at most one nudge is ever in the active set; admission is
rejected whenever any advisory is active; and when two trigger conditions of
distinct categories arrive at the same instant with no advisory active and
both categories out of cooldown, exactly one advisory becomes active (the
first), and the second call leaves the state unchanged -- dropped, never
queued. -/
theorem nudge_exclusivity :
    (∀ (st : NudgeState) (ty : NudgeType) (m : String) (now : ℤ),
      st.nudges ≠ [] → addNudge st ty m now = st) ∧
    (∀ (st : NudgeState) (ty : NudgeType) (m : String) (now : ℤ),
      st.nudges.length ≤ 1 → (addNudge st ty m now).nudges.length ≤ 1) ∧
    (∀ (st : NudgeState) (t1 : NudgeType) (m1 : String) (t2 : NudgeType)
        (m2 : String) (now : ℤ),
      t1 ≠ t2 → st.nudges = [] → NUDGE_COOLDOWN ≤ now - st.lastNudgeTime t1 →
      (addNudge st t1 m1 now).nudges.length = 1 ∧
      addNudge (addNudge st t1 m1 now) t2 m2 now = addNudge st t1 m1 now) := by
  refine ⟨?_, ?_, ?_⟩
  · intro st ty m now hne
    simp only [addNudge]
    rw [if_pos (List.length_pos.mpr hne)]
  · intro st ty m now hle
    simp only [addNudge]
    split
    · exact hle
    · split
      · exact hle
      · simp
  · intro st t1 m1 t2 m2 now _ hempty hcool
    have h1 : addNudge st t1 m1 now =
        { nudges := [⟨t1, m1, now⟩],
          lastNudgeTime := fun t => if t = t1 then now else st.lastNudgeTime t } := by
      simp only [addNudge]
      rw [if_neg (by rw [hempty]; simp), if_neg (by omega)]
    constructor
    · rw [h1]
      rfl
    · rw [h1]
      simp only [addNudge]
      rw [if_pos (by simp)]

/-- Witness for C5 at concrete states: a posture trigger against an active
audio nudge is rejected; from the empty state an audio trigger at t = 50000
is admitted and a same-instant posture trigger is dropped. -/
theorem nudge_exclusivity_witness :
    (addNudge ⟨[⟨NudgeType.audio, "m", 0⟩], fun _ => 0⟩ NudgeType.posture "p" 50000 =
      ⟨[⟨NudgeType.audio, "m", 0⟩], fun _ => 0⟩) ∧
    ((addNudge ⟨[], fun _ => 0⟩ NudgeType.audio "a" 50000).nudges.length ≤ 1) ∧
    ((addNudge ⟨[], fun _ => 0⟩ NudgeType.audio "a" 50000).nudges.length = 1 ∧
      addNudge (addNudge ⟨[], fun _ => 0⟩ NudgeType.audio "a" 50000)
          NudgeType.posture "p" 50000 =
        addNudge ⟨[], fun _ => 0⟩ NudgeType.audio "a" 50000) := by
  have h := nudge_exclusivity
  exact ⟨h.1 _ NudgeType.posture "p" 50000 (by simp),
    h.2.1 _ NudgeType.audio "a" 50000 (by simp),
    h.2.2 _ NudgeType.audio "a" NudgeType.posture "p" 50000 (by decide) rfl
      (by norm_num [NUDGE_COOLDOWN])⟩

/-- Claim C6: a trigger for a category arriving while now - lastFired < 30000
ms is rejected; a trigger arriving with no advisory active and at least
30000 ms since the category last fired is admitted, with lastFired updated to
the admission time; consequently a repeat of an admitted category within
30000 ms is rejected whatever the rest of the state, and a repeat after
30000 ms (with no advisory active) is admitted by the same admission rule. -/
theorem nudge_cooldown :
    (∀ (st : NudgeState) (ty : NudgeType) (m : String) (now : ℤ),
      now - st.lastNudgeTime ty < NUDGE_COOLDOWN → addNudge st ty m now = st) ∧
    (∀ (st : NudgeState) (ty : NudgeType) (m : String) (now : ℤ),
      st.nudges = [] → NUDGE_COOLDOWN ≤ now - st.lastNudgeTime ty →
      (addNudge st ty m now).nudges = [⟨ty, m, now⟩] ∧
      (addNudge st ty m now).lastNudgeTime ty = now) ∧
    (∀ (st : NudgeState) (ty : NudgeType) (m : String) (now : ℤ)
        (st2 : NudgeState) (m2 : String) (now2 : ℤ),
      st.nudges = [] → NUDGE_COOLDOWN ≤ now - st.lastNudgeTime ty →
      st2.lastNudgeTime ty = (addNudge st ty m now).lastNudgeTime ty →
      now2 - now < NUDGE_COOLDOWN →
      addNudge st2 ty m2 now2 = st2) := by
  have hgrant : ∀ (st : NudgeState) (ty : NudgeType) (m : String) (now : ℤ),
      st.nudges = [] → NUDGE_COOLDOWN ≤ now - st.lastNudgeTime ty →
      addNudge st ty m now =
        { nudges := [⟨ty, m, now⟩],
          lastNudgeTime := fun t => if t = ty then now else st.lastNudgeTime t } := by
    intro st ty m now hempty hcool
    simp only [addNudge]
    rw [if_neg (by rw [hempty]; simp), if_neg (by omega)]
  refine ⟨?_, ?_, ?_⟩
  · intro st ty m now hcool
    simp only [addNudge]
    by_cases hn : 0 < st.nudges.length
    · rw [if_pos hn]
    · rw [if_neg hn, if_pos hcool]
  · intro st ty m now hempty hcool
    rw [hgrant st ty m now hempty hcool]
    exact ⟨rfl, by simp⟩
  · intro st ty m now st2 m2 now2 hempty hcool hledger hsoon
    have hlast : st2.lastNudgeTime ty = now := by
      rw [hledger, hgrant st ty m now hempty hcool]
      simp
    simp only [addNudge]
    split
    · rfl
    · rw [if_pos (by rw [hlast]; omega)]

/-- Witness for C6 at concrete states: a repeat 5000 ms into the cooldown is
rejected; from the empty ledger a trigger at t = 50000 is admitted and
recorded; a repeat at t = 60000 against the updated ledger is rejected. -/
theorem nudge_cooldown_witness :
    (addNudge ⟨[], fun _ => 35000⟩ NudgeType.audio "a" 40000 =
      ⟨[], fun _ => 35000⟩) ∧
    ((addNudge ⟨[], fun _ => 0⟩ NudgeType.audio "a" 50000).nudges =
        [⟨NudgeType.audio, "a", 50000⟩] ∧
      (addNudge ⟨[], fun _ => 0⟩ NudgeType.audio "a" 50000).lastNudgeTime
          NudgeType.audio = 50000) ∧
    (addNudge ⟨[], fun _ => 50000⟩ NudgeType.audio "b" 60000 =
      ⟨[], fun _ => 50000⟩) := by
  have h := nudge_cooldown
  refine ⟨h.1 _ NudgeType.audio "a" 40000 (by norm_num [NUDGE_COOLDOWN]),
    h.2.1 _ NudgeType.audio "a" 50000 rfl (by norm_num [NUDGE_COOLDOWN]), ?_⟩
  refine h.2.2 ⟨[], fun _ => 0⟩ NudgeType.audio "a" 50000 _ "b" 60000 rfl
    (by norm_num [NUDGE_COOLDOWN]) ?_ (by norm_num [NUDGE_COOLDOWN])
  norm_num [addNudge, NUDGE_COOLDOWN]

/-! ## Claim theorems: vision service (C8) -/

/-- Claim C8: calling the visual analyzer with a timestamp at or before the
previously accepted one, or with a non-positive timestamp, returns null, does
not invoke the underlying landmark detection, and leaves the whole state
(including the frame counters) unchanged. -/
theorem vision_timestamp_guard (st : VisionState)
    (detect : Option (FaceResult × PoseResult)) (ts : ℚ)
    (h : ts ≤ st.lastTimestamp ∨ ts ≤ 0) :
    VisionService.analyze st detect ts = (st, none, false) := by
  simp only [VisionService.analyze]
  by_cases hinit : st.isInitialized = false
  · rw [if_pos hinit]
  · rw [if_neg hinit, if_pos h]

/-- Witness for C8 at an initialized state with lastTimestamp 5 and a stale
call at timestamp 5. -/
theorem vision_timestamp_guard_witness :
    ((5 : ℚ) ≤ (⟨true, 5, 3, 2, 1⟩ : VisionState).lastTimestamp ∨ (5 : ℚ) ≤ 0) ∧
    VisionService.analyze ⟨true, 5, 3, 2, 1⟩ none 5 = (⟨true, 5, 3, 2, 1⟩, none, false) :=
  ⟨Or.inl (by norm_num), vision_timestamp_guard ⟨true, 5, 3, 2, 1⟩ none 5
    (Or.inl (by norm_num))⟩

/-! ## Claim theorems: report fallback (C9) -/

/-- Claim C9: whatever transcript and config produced the collaborator call,
if report generation fails -- the remote call throws, or its output text is
unparseable -- the screen still receives the fallback report, which is
structurally complete and valid against REPORT_JSON_SCHEMA (all required
fields present with their declared types), so the user always reaches a
result screen. -/
theorem report_fallback :
    (∀ parse : String → Option ReportData,
      reportScreenGenerate (Except.error ()) parse = fallbackReport) ∧
    (∀ (text : String) (parse : String → Option ReportData),
      parse (if text = "" then "\x7b\x7d" else text) = none →
      reportScreenGenerate (Except.ok text) parse = fallbackReport) ∧
    matchesReportSchema (reportDataToJson fallbackReport) = true := by
  refine ⟨fun parse => rfl, ?_, ?_⟩
  · intro text parse h
    simp only [reportScreenGenerate, generateReport, h]
  · rfl

/-- Witness for C9 with a parse oracle that always fails. -/
theorem report_fallback_witness :
    ((fun _ : String => (none : Option ReportData))
        (if ("x" : String) = "" then "\x7b\x7d" else "x") = none) ∧
    reportScreenGenerate (Except.error ()) (fun _ => none) = fallbackReport ∧
    reportScreenGenerate (Except.ok "x") (fun _ => none) = fallbackReport ∧
    matchesReportSchema (reportDataToJson fallbackReport) = true :=
  ⟨rfl, report_fallback.1 (fun _ => none),
    report_fallback.2.1 "x" (fun _ => none) rfl, report_fallback.2.2⟩
